import Mathlib

/-!
# complaint-escalator: email relay core

A shallow embedding of `internal/email/email.go` and `cmd/server/server.go`.

Go strings are modelled by Lean `String`s; a Go `error` is the text returned by
its `Error()` method (`fmt.Errorf` with `%w` or `%v` splices that text into the
new message).  A Go slice is either `nil` or a (possibly empty) sequence of
elements, and the two are kept apart because `encoding/json` prints them
differently.  Calls that leave the program (decoding the inbound body, creating
and performing the outbound HTTP request, the clock) are fields of a `World`
value; every operation that has an effect returns, next to its result, the list
of events it performed, in order.
-/

namespace ComplaintEscalator

deriving instance DecidableEq for Except

/-! ## Go library functions used by the program -/

namespace strings

/-- Go `strings.HasPrefix(s, pre)`. -/
def HasPrefix (s pre : String) : Bool :=
  pre.data.isPrefixOf s.data

/-- Go `strings.TrimPrefix(s, pre)`: `s` without the leading `pre`, or `s`
unchanged when it does not start with `pre`. -/
def TrimPrefix (s pre : String) : String :=
  if HasPrefix s pre then String.mk (s.data.drop pre.data.length) else s

/-- Go `strings.Split(s, sep)` for a one-character separator: the pieces of `s`
between the occurrences of `sep` (a single piece, `s` itself, when there is
none; the empty string splits into one empty piece). -/
def Split (s : String) (sep : Char) : List String :=
  (s.data.splitOn sep).map String.mk

/-- Go `strings.Join(elems, sep)` for a one-character separator. -/
def Join (elems : List String) (sep : Char) : String :=
  String.mk ([sep].intercalate (elems.map String.data))

end strings

/-- A Go slice value: `nil`, or a backing sequence of elements. -/
inductive Slice (α : Type) where
  | nil : Slice α
  | mk (elems : List α) : Slice α
deriving DecidableEq, Repr

namespace Slice

/-- The elements of a slice (none for `nil`). -/
def toList {α : Type} : Slice α → List α
  | nil => []
  | mk xs => xs

/-- Go `len(s)`. -/
def len {α : Type} (s : Slice α) : Nat :=
  s.toList.length

end Slice

/-! ## internal/email/email.go -/

/-- The record `EmailClient` (the HTTP client is represented by its timeout,
in seconds). -/
structure EmailClient where
  connectionString : String
  httpClientTimeout : Nat
  endpoint : String
  accessKey : String
deriving DecidableEq, Repr

/-- The record `EmailMessage`. -/
structure EmailMessage where
  From : String
  To : Slice String
  Subject : String
  Body : String
  CC : Slice String
  BCC : Slice String
  ReplyTo : String
deriving DecidableEq, Repr

/-- The record `azureEmailAddress`. -/
structure azureEmailAddress where
  Email : String
deriving DecidableEq, Repr

/-- The anonymous record of `azureEmailRequest.Content`. -/
structure azureEmailContent where
  Subject : String
  PlainText : String
deriving DecidableEq, Repr

/-- The anonymous record of `azureEmailRequest.Recipients`. -/
structure azureEmailRecipients where
  To : Slice azureEmailAddress
  CC : Slice azureEmailAddress
  BCC : Slice azureEmailAddress
deriving DecidableEq, Repr

/-- The record `azureEmailRequest`; the pointer field `ReplyTo` is `none` when
it is the nil pointer. -/
structure azureEmailRequest where
  SenderAddress : String
  Content : azureEmailContent
  Recipients : azureEmailRecipients
  ReplyTo : Option azureEmailAddress
deriving DecidableEq, Repr

/-- One pass of the loop of `parseConnectionString` over a token: the pair is
`(endpoint, accessKey)`. -/
def parseStep (acc : String × String) (part : String) : String × String :=
  if strings.HasPrefix part "endpoint=" then
    (strings.TrimPrefix part "endpoint=", acc.2)
  else if strings.HasPrefix part "accesskey=" then
    (acc.1, strings.TrimPrefix part "accesskey=")
  else acc

/-- `parseConnectionString`: returns `(endpoint, accessKey)` or the error. -/
def parseConnectionString (connStr : String) : Except String (String × String) :=
  let parts := strings.Split connStr ';'
  let r := parts.foldl parseStep ("", "")
  if r.1 = "" ∨ r.2 = "" then
    Except.error "invalid connection string format"
  else
    Except.ok (r.1, r.2)

/-- `NewEmailClient`: the client, or the error. -/
def NewEmailClient (connectionString : String) : Except String EmailClient :=
  if connectionString = "" then
    Except.error "connection string cannot be empty"
  else
    match parseConnectionString connectionString with
    | Except.error err => Except.error ("failed to parse connection string: " ++ err)
    | Except.ok (endpoint, accessKey) =>
      Except.ok
        { connectionString := connectionString
          httpClientTimeout := 30
          endpoint := endpoint
          accessKey := accessKey }

/-- `GetEmailClientFromConfig`. -/
def GetEmailClientFromConfig (acsConnectionString : String) : Except String EmailClient :=
  if acsConnectionString = "" then
    Except.error "ACS connection string is not configured"
  else
    match NewEmailClient acsConnectionString with
    | Except.error err => Except.error ("failed to create email client: " ++ err)
    | Except.ok client => Except.ok client

/-- `validateMessage`: `none` is the nil error. The receiver is not used. -/
def validateMessage (msg : EmailMessage) : Option String :=
  if msg.From = "" then some "sender address is required"
  else if msg.To.len = 0 then some "at least one recipient is required"
  else if msg.Subject = "" then some "subject is required"
  else if msg.Body = "" then some "body is required"
  else none

/-- `convertToAzureEmailAddresses`: the result is made with `make`, so it is
never the nil slice. -/
def convertToAzureEmailAddresses (addresses : Slice String) : Slice azureEmailAddress :=
  Slice.mk (addresses.toList.map fun addr => { Email := addr })

/-- `CreateEmailMessageFromConfig`. -/
def CreateEmailMessageFromConfig (fromEmail : String) (toEmails ccEmails bccEmails : Slice String)
    (replyTo subject body : String) : EmailMessage :=
  let msg : EmailMessage :=
    { From := fromEmail, To := toEmails, Subject := subject, Body := body,
      CC := Slice.nil, BCC := Slice.nil, ReplyTo := replyTo }
  let msg := if ccEmails.len > 0 then { msg with CC := ccEmails } else msg
  let msg := if bccEmails.len > 0 then { msg with BCC := bccEmails } else msg
  msg

/-! ### The JSON text written by `encoding/json` -/

/-- A JSON value, as `json.Marshal` lays it out: an object keeps its members in
the order of the record's fields. -/
inductive JSON where
  | null : JSON
  | bool (b : Bool) : JSON
  | str (s : String) : JSON
  | arr (items : List JSON) : JSON
  | obj (members : List (String × JSON)) : JSON

namespace JSON

/-- The value of member `k` of an object. -/
def get? (k : String) : JSON → Option JSON
  | obj members => (members.find? fun kv => kv.1 == k).map Prod.snd
  | _ => none

end JSON

/-- A member tagged `omitempty` whose value is a string: left out when the
string is empty. -/
def omitemptyString (key : String) (v : String) : List (String × JSON) :=
  if v = "" then [] else [(key, JSON.str v)]

/-- A slice member without `omitempty`: `null` for the nil slice, an array
otherwise. -/
def marshalSlice {α : Type} (f : α → JSON) : Slice α → JSON
  | Slice.nil => JSON.null
  | Slice.mk xs => JSON.arr (xs.map f)

/-- A member tagged `omitempty` whose value is a slice: left out when the
slice has length zero (nil or not). -/
def omitemptySlice {α : Type} (key : String) (f : α → JSON) (v : Slice α) :
    List (String × JSON) :=
  if v.len = 0 then [] else [(key, marshalSlice f v)]

/-- `json.Marshal` of an `azureEmailAddress`. -/
def azureEmailAddress.toJSON (a : azureEmailAddress) : JSON :=
  JSON.obj [("email", JSON.str a.Email)]

/-- `json.Marshal` of the `Recipients` record, by its field tags. -/
def azureEmailRecipients.toJSON (r : azureEmailRecipients) : JSON :=
  JSON.obj
    ([("to", marshalSlice azureEmailAddress.toJSON r.To)]
      ++ omitemptySlice "cc" azureEmailAddress.toJSON r.CC
      ++ omitemptySlice "bcc" azureEmailAddress.toJSON r.BCC)

/-- `json.Marshal` of an `azureEmailRequest`, by its field tags; the pointer
member `replyTo` is left out when it is nil. -/
def azureEmailRequest.toJSON (r : azureEmailRequest) : JSON :=
  JSON.obj
    ([("senderAddress", JSON.str r.SenderAddress),
      ("content", JSON.obj [("subject", JSON.str r.Content.Subject),
                            ("plainText", JSON.str r.Content.PlainText)]),
      ("recipients", r.Recipients.toJSON)]
      ++ (match r.ReplyTo with
          | none => []
          | some a => [("replyTo", a.toJSON)]))

/-! ### The outside world -/

/-- An outbound HTTP request: method, URL, headers and the JSON body. -/
structure HttpRequest where
  Method : String
  URL : String
  Header : List (String × String)
  Body : JSON

/-- What `httpClient.Do` hands back: the status code, and the outcome of
`io.ReadAll` on the body (its text or the read error). -/
structure HttpResponse where
  StatusCode : Int
  Body : Except String String

/-- The record `EmailRequest` of `cmd/server/server.go`. -/
structure EmailRequest where
  Subject : String
  Body : String
deriving DecidableEq, Repr

/-- The calls that leave the program. -/
structure World where
  /-- The call `json.NewDecoder(r.Body).Decode(&emailReq)` on a raw body. -/
  decodeEmailRequest : String → Except String EmailRequest
  /-- The error of `http.NewRequestWithContext` for a method and a URL. -/
  newRequestError : String → String → Option String
  /-- The call `httpClient.Do` of a client with the given timeout. -/
  httpDo : Nat → HttpRequest → Except String HttpResponse
  /-- The value of `time.Now().Unix()`. -/
  now : Int

/-- What the program does, in order. -/
inductive Event where
  /-- The raw body was handed to the JSON decoder. -/
  | decodeBody (raw : String) : Event
  /-- `CreateEmailMessageFromConfig` returned this message. -/
  | createMessage (msg : EmailMessage) : Event
  /-- `SendEmail` was called with this message. -/
  | sendEmail (msg : EmailMessage) : Event
  /-- `http.NewRequestWithContext` returned this request. -/
  | httpRequestCreated (req : HttpRequest) : Event
  /-- The call `httpClient.Do(req)`; what the client does inside that call
  belongs to the world. -/
  | httpRequestSent (req : HttpRequest) : Event
  /-- A line written with `log.Printf`. -/
  | log (line : String) : Event

/-! ### SendEmail -/

/-- The provider payload `SendEmail` builds (`azureReq`). -/
def buildAzureRequest (msg : EmailMessage) : azureEmailRequest :=
  let azureReq : azureEmailRequest :=
    { SenderAddress := msg.From
      Content := { Subject := msg.Subject, PlainText := msg.Body }
      Recipients :=
        { To := convertToAzureEmailAddresses msg.To, CC := Slice.nil, BCC := Slice.nil }
      ReplyTo := none }
  let azureReq :=
    if msg.CC.len > 0 then
      { azureReq with
        Recipients := { azureReq.Recipients with CC := convertToAzureEmailAddresses msg.CC } }
    else azureReq
  let azureReq :=
    if msg.BCC.len > 0 then
      { azureReq with
        Recipients := { azureReq.Recipients with BCC := convertToAzureEmailAddresses msg.BCC } }
    else azureReq
  let azureReq :=
    if msg.ReplyTo ≠ "" then { azureReq with ReplyTo := some { Email := msg.ReplyTo } }
    else azureReq
  azureReq

/-- `SendEmail`: the returned error (`none` is nil) and the events performed.
`json.Marshal` cannot fail on a record of strings, so that branch is absent. -/
def SendEmail (ec : EmailClient) (w : World) (msg : EmailMessage) :
    Option String × List Event :=
  match validateMessage msg with
  | some err => (some ("invalid email message: " ++ err), [])
  | none =>
    let azureReq := buildAzureRequest msg
    let jsonData := azureReq.toJSON
    let url := ec.endpoint ++ "/emails:send?api-version=2023-03-31"
    match w.newRequestError "POST" url with
    | some err => (some ("failed to create HTTP request: " ++ err), [])
    | none =>
      let req : HttpRequest :=
        { Method := "POST", URL := url,
          Header := [("Content-Type", "application/json"),
                     ("Authorization", "HMAC-SHA256 " ++ ec.accessKey)],
          Body := jsonData }
      let issued := [Event.httpRequestCreated req, Event.httpRequestSent req]
      match w.httpDo ec.httpClientTimeout req with
      | Except.error err => (some ("failed to send HTTP request: " ++ err), issued)
      | Except.ok resp =>
        match resp.Body with
        | Except.error err => (some ("failed to read response body: " ++ err), issued)
        | Except.ok body =>
          if resp.StatusCode ≥ 400 then
            (some ("email send failed with status " ++ toString resp.StatusCode ++ ": " ++ body),
              issued)
          else
            (none,
              issued ++
                [Event.log ("Email sent successfully. Status: " ++ toString resp.StatusCode)])

/-! ## cmd/server/server.go -/

/-- The record `Config` of `internal/config/config.go` (durations in
nanoseconds). -/
structure Config where
  Interval : Int
  Backoff : Int
  Template : String
  Channels : Slice String
  ACSConnectionString : String
  ACSDomain : String
  ACSFromEmail : String
  EmailTo : Slice String
  EmailCC : Slice String
  EmailBCC : Slice String
  EmailReplyTo : String
deriving DecidableEq, Repr

/-- The record `EmailResponse`. -/
structure EmailResponse where
  Success : Bool
  Message : String
  ID : String
deriving DecidableEq, Repr

/-- `json.NewEncoder(w).Encode` of an `EmailResponse`, by its field tags. -/
def EmailResponse.toJSON (r : EmailResponse) : JSON :=
  JSON.obj
    ([("success", JSON.bool r.Success), ("message", JSON.str r.Message)]
      ++ omitemptyString "id" r.ID)

/-- The record `Server` (the listener is left out). -/
structure Server where
  config : Config
  emailClient : EmailClient
deriving DecidableEq, Repr

/-- `NewServer`. -/
def NewServer (cfg : Config) : Except String Server :=
  match GetEmailClientFromConfig cfg.ACSConnectionString with
  | Except.error err => Except.error ("failed to initialize email client: " ++ err)
  | Except.ok emailClient => Except.ok { config := cfg, emailClient := emailClient }

/-- An inbound request: its method and raw body. -/
structure Request where
  Method : String
  Body : String
deriving DecidableEq, Repr

/-- What a handler writes: plain text (`http.Error`) or an encoded
`EmailResponse`. -/
inductive ResponseBody where
  | text (s : String) : ResponseBody
  | json (r : EmailResponse) : ResponseBody
deriving DecidableEq, Repr

/-- The response a handler writes. -/
structure Response where
  Status : Nat
  ContentType : String
  Body : ResponseBody
deriving DecidableEq, Repr

/-- Go `http.Error(w, msg, code)`. -/
def httpError (msg : String) (code : Nat) : Response :=
  { Status := code, ContentType := "text/plain; charset=utf-8",
    Body := ResponseBody.text (msg ++ "\n") }

/-- `sendEmailHandler`: the response written and the events performed. -/
def sendEmailHandler (s : Server) (w : World) (r : Request) : Response × List Event :=
  if r.Method ≠ "POST" then
    (httpError "Method not allowed" 405, [])
  else
    match w.decodeEmailRequest r.Body with
    | Except.error _ =>
      (httpError "Invalid JSON request body" 400, [Event.decodeBody r.Body])
    | Except.ok emailReq =>
      if emailReq.Subject = "" then
        (httpError "Subject is required" 400, [Event.decodeBody r.Body])
      else if emailReq.Body = "" then
        (httpError "Body is required" 400, [Event.decodeBody r.Body])
      else
        let emailMsg := CreateEmailMessageFromConfig s.config.ACSFromEmail s.config.EmailTo
          s.config.EmailCC s.config.EmailBCC s.config.EmailReplyTo emailReq.Subject emailReq.Body
        let sent := SendEmail s.emailClient w emailMsg
        let before := [Event.decodeBody r.Body, Event.createMessage emailMsg,
          Event.sendEmail emailMsg] ++ sent.2
        match sent.1 with
        | some err =>
          ({ Status := 500, ContentType := "application/json",
             Body := ResponseBody.json
               { Success := false, Message := "Failed to send email: " ++ err, ID := "" } },
            before ++ [Event.log ("Failed to send email: " ++ err)])
        | none =>
          ({ Status := 200, ContentType := "application/json",
             Body := ResponseBody.json
               { Success := true, Message := "Email sent successfully",
                 ID := "email_" ++ toString w.now } },
            before)

/-- The messages handed to the provider adapter (the `sendEmail` events), in
order. -/
def sentMessages : List Event → List EmailMessage
  | [] => []
  | Event.sendEmail msg :: rest => msg :: sentMessages rest
  | _ :: rest => sentMessages rest

/-! ## Sample inputs -/

/-- A client as `NewEmailClient` makes it. -/
def sampleClient : EmailClient :=
  { connectionString := "endpoint=https://acs.example;accesskey=secret"
    httpClientTimeout := 30
    endpoint := "https://acs.example"
    accessKey := "secret" }

/-- A world whose decoder accepts three bodies and rejects every other one,
and whose provider answers every request with the given status. -/
def sampleWorld (status : Int) : World :=
  { decodeEmailRequest := fun raw =>
      if raw = "\x7b\"subject\":\"S\",\"body\":\"B\"\x7d" then
        Except.ok { Subject := "S", Body := "B" }
      else if raw = "\x7b\"body\":\"B\"\x7d" then
        Except.ok { Subject := "", Body := "B" }
      else if raw = "\x7b\"subject\":\"S\"\x7d" then
        Except.ok { Subject := "S", Body := "" }
      else Except.error "invalid character"
    newRequestError := fun _ _ => none
    httpDo := fun _ _ => Except.ok { StatusCode := status, Body := Except.ok "accepted" }
    now := 1700000000 }

/-- A configuration with one recipient and no cc, bcc or reply-to. -/
def sampleConfig : Config :=
  { Interval := 300000000000, Backoff := 120000000000, Template := "t",
    Channels := Slice.mk ["email"],
    ACSConnectionString := "endpoint=https://acs.example;accesskey=secret",
    ACSDomain := "example.com", ACSFromEmail := "noreply@example.com",
    EmailTo := Slice.mk ["a@example.com"], EmailCC := Slice.nil, EmailBCC := Slice.nil,
    EmailReplyTo := "" }

/-- The server over `sampleConfig`. -/
def sampleServer : Server :=
  { config := sampleConfig, emailClient := sampleClient }

/-- A message that passes the precondition, with no cc, bcc or reply-to. -/
def sampleMessage : EmailMessage :=
  { From := "noreply@example.com", To := Slice.mk ["a@example.com"], Subject := "S", Body := "B",
    CC := Slice.nil, BCC := Slice.nil, ReplyTo := "" }

/-- The server over `sampleConfig` with the recipient list removed. -/
def noRecipientsServer : Server :=
  { config := { sampleConfig with EmailTo := Slice.nil }, emailClient := sampleClient }

/-- A world whose decoder accepts one other body, and in which the provider
cannot be reached. -/
def unreachableWorld : World :=
  { decodeEmailRequest := fun raw =>
      if raw = "\x7b\"subject\":\"Hello\",\"body\":\"World\"\x7d" then
        Except.ok { Subject := "Hello", Body := "World" }
      else Except.error "invalid character"
    newRequestError := fun _ _ => none
    httpDo := fun _ _ => Except.error "dial tcp: connection refused"
    now := 1700000001 }

/-! ## Lemmas about the string functions -/

theorem string_eq_empty_iff (s : String) : s = "" ↔ s.data = [] := by
  constructor
  · intro h; subst h; rfl
  · intro h; exact String.ext h

theorem hasPrefix_iff (s pre : String) :
    strings.HasPrefix s pre = true ↔ pre.data <+: s.data := by
  unfold strings.HasPrefix
  exact List.isPrefixOf_iff_prefix

theorem hasPrefix_append (pre s : String) : strings.HasPrefix (pre ++ s) pre = true := by
  rw [hasPrefix_iff, String.data_append]
  exact List.prefix_append _ _

theorem trimPrefix_append (pre s : String) : strings.TrimPrefix (pre ++ s) pre = s := by
  unfold strings.TrimPrefix
  rw [if_pos (hasPrefix_append pre s)]
  apply String.ext
  simp [String.data_append]

/-- A token cannot start with both recognised keys. -/
theorem not_accesskey_of_endpoint (t : String) (h : strings.HasPrefix t "endpoint=" = true) :
    strings.HasPrefix t "accesskey=" = false := by
  rw [hasPrefix_iff] at h
  obtain ⟨r, hr⟩ := h
  cases hk : strings.HasPrefix t "accesskey=" with
  | false => rfl
  | true =>
    rw [hasPrefix_iff] at hk
    obtain ⟨r', hr'⟩ := hk
    rw [← hr] at hr'
    simp at hr'

theorem split_single (s : String) (h : ';' ∉ s.data) : strings.Split s ';' = [s] := by
  unfold strings.Split
  have : s.data.splitOn ';' = [s.data] := by
    apply List.splitOnP_eq_single
    intro x hx hp
    rw [eq_of_beq hp] at hx
    exact h hx
  rw [this]
  rfl

theorem split_append_sep (a b : String) (h : ';' ∉ a.data) :
    strings.Split (a ++ ";" ++ b) ';' = a :: strings.Split b ';' := by
  unfold strings.Split
  have hd : (a ++ ";" ++ b).data = a.data ++ ';' :: b.data := by
    simp [String.data_append]
  have : (a.data ++ ';' :: b.data).splitOn ';' = a.data :: b.data.splitOn ';' := by
    apply List.splitOnP_first
    · intro x hx hp
      rw [eq_of_beq hp] at hx
      exact h hx
    · simp
  rw [hd, this]
  rfl

/-- Splitting the `;`-join of tokens that hold no `;` gives the tokens back. -/
theorem split_join (ts : List String) (hne : ts ≠ []) (h : ∀ t ∈ ts, ';' ∉ t.data) :
    strings.Split (strings.Join ts ';') ';' = ts := by
  unfold strings.Split strings.Join
  have := List.splitOn_intercalate (ts.map String.data) ';'
    (by
      intro l hl
      obtain ⟨t, ht, rfl⟩ := List.mem_map.mp hl
      exact h t ht)
    (by simpa using hne)
  simp only [this, List.map_map]
  conv_rhs => rw [← List.map_id ts]
  apply List.map_congr_left
  intro t _
  rfl

/-! ## Lemmas about the loop of `parseConnectionString` -/

/-- The endpoint after the loop is the value of the last token that starts
with `endpoint=`, or the initial one when there is none. -/
theorem foldl_parseStep_fst (ts : List String) (acc : String × String) :
    (ts.foldl parseStep acc).1 =
      (((ts.filter fun t => strings.HasPrefix t "endpoint=").getLast?).map
        fun t => strings.TrimPrefix t "endpoint=").getD acc.1 := by
  induction ts generalizing acc with
  | nil => rfl
  | cons t ts ih =>
    rw [List.foldl_cons, ih]
    by_cases ht : strings.HasPrefix t "endpoint=" = true
    · rw [List.filter_cons, if_pos ht]
      cases hl : (ts.filter fun t => strings.HasPrefix t "endpoint=") with
      | nil => simp [parseStep, ht]
      | cons x xs =>
        rw [List.getLast?_cons_cons, List.getLast?_eq_getLast _ (List.cons_ne_nil _ _)]
        rfl
    · rw [List.filter_cons, if_neg ht]
      have : (parseStep acc t).1 = acc.1 := by
        unfold parseStep
        rw [if_neg ht]
        split <;> rfl
      rw [this]

/-- The access key after the loop is the value of the last token that starts
with `accesskey=`, or the initial one when there is none. -/
theorem foldl_parseStep_snd (ts : List String) (acc : String × String) :
    (ts.foldl parseStep acc).2 =
      (((ts.filter fun t => strings.HasPrefix t "accesskey=").getLast?).map
        fun t => strings.TrimPrefix t "accesskey=").getD acc.2 := by
  induction ts generalizing acc with
  | nil => rfl
  | cons t ts ih =>
    rw [List.foldl_cons, ih]
    by_cases ht : strings.HasPrefix t "accesskey=" = true
    · rw [List.filter_cons, if_pos ht]
      have he : ¬ strings.HasPrefix t "endpoint=" = true := by
        intro he
        rw [not_accesskey_of_endpoint t he] at ht
        exact Bool.noConfusion ht
      cases hl : (ts.filter fun t => strings.HasPrefix t "accesskey=") with
      | nil => simp [parseStep, ht, he]
      | cons x xs =>
        rw [List.getLast?_cons_cons, List.getLast?_eq_getLast _ (List.cons_ne_nil _ _)]
        rfl
    · rw [List.filter_cons, if_neg ht]
      have : (parseStep acc t).2 = acc.2 := by
        unfold parseStep
        split_ifs <;> rfl
      rw [this]

/-- Under a permutation, the last element of a filter is unchanged when all
the elements that pass the filter are equal. -/
theorem getLast?_filter_perm (p : String → Bool) (ts ts' : List String) (hp : ts.Perm ts')
    (huniq : ∀ a ∈ ts, ∀ b ∈ ts, p a = true → p b = true → a = b) :
    (ts.filter p).getLast? = (ts'.filter p).getLast? := by
  have hf : (ts.filter p).Perm (ts'.filter p) := hp.filter p
  cases h1 : (ts.filter p).getLast? with
  | none =>
    rw [List.getLast?_eq_none_iff] at h1
    rw [h1] at hf
    rw [← hf.nil_eq]
    rfl
  | some x =>
    cases h2 : (ts'.filter p).getLast? with
    | none =>
      rw [List.getLast?_eq_none_iff] at h2
      rw [h2] at hf
      rw [hf.eq_nil] at h1
      exact Option.noConfusion h1
    | some y =>
      have hx := List.mem_filter.mp (List.mem_of_getLast?_eq_some h1)
      have hy := List.mem_filter.mp (hf.mem_iff.mpr (List.mem_of_getLast?_eq_some h2))
      rw [huniq x hx.1 y hy.1 hx.2 hy.2]

/-! ## The claims -/

/-- C1: `validateMessage` rejects a message exactly when its from is empty, or
its to list has no entries, or its subject is empty, or its body is empty; and
whenever it rejects, `SendEmail` returns a failure (the validation error,
wrapped) and performs no event at all: no HTTP request is built or issued. -/
theorem validateMessage_rejects_iff (ec : EmailClient) (w : World) (msg : EmailMessage) :
    ((validateMessage msg).isSome = true ↔
        (msg.From = "" ∨ msg.To.len = 0 ∨ msg.Subject = "" ∨ msg.Body = "")) ∧
      (∀ err, validateMessage msg = some err →
        SendEmail ec w msg = (some ("invalid email message: " ++ err), [])) := by
  constructor
  · unfold validateMessage
    split_ifs <;> simp [*]
  · intro err h
    unfold SendEmail
    rw [h]

/-- C2: a POST whose body fails to decode, or decodes with an empty subject or
an empty body, is answered with status 400 by `http.Error` (a fixed text for a
body that does not decode, a text naming the missing field otherwise), and the
only event is the decoding of the body: no message is built and the adapter is
not called. -/
theorem sendEmailHandler_bad_request (s : Server) (w : World) (r : Request)
    (hm : r.Method = "POST")
    (hbad : (∃ e, w.decodeEmailRequest r.Body = Except.error e) ∨
      (∃ q, w.decodeEmailRequest r.Body = Except.ok q ∧ (q.Subject = "" ∨ q.Body = ""))) :
    (sendEmailHandler s w r).1.Status = 400 ∧
      (sendEmailHandler s w r).2 = [Event.decodeBody r.Body] ∧
      ((∃ e, w.decodeEmailRequest r.Body = Except.error e) →
        (sendEmailHandler s w r).1 = httpError "Invalid JSON request body" 400) ∧
      (∀ q, w.decodeEmailRequest r.Body = Except.ok q → q.Subject = "" →
        (sendEmailHandler s w r).1 = httpError "Subject is required" 400) ∧
      (∀ q, w.decodeEmailRequest r.Body = Except.ok q → q.Subject ≠ "" → q.Body = "" →
        (sendEmailHandler s w r).1 = httpError "Body is required" 400) := by
  unfold sendEmailHandler
  rw [if_neg (not_not.mpr hm)]
  rcases hbad with ⟨e, he⟩ | ⟨q, hq, hempty⟩
  · rw [he]
    simp [httpError]
  · rw [hq]
    by_cases hs : q.Subject = ""
    · simp [hs, httpError]
    · have hb : q.Body = "" := hempty.resolve_left hs
      simp [hs, hb, httpError]

theorem sendEmailHandler_bad_request_witness :
    (sendEmailHandler sampleServer (sampleWorld 202)
        { Method := "POST", Body := "invalid json" }).1.Status = 400 ∧
      (sendEmailHandler sampleServer (sampleWorld 202)
        { Method := "POST", Body := "\x7b\"body\":\"B\"\x7d" }).1
          = httpError "Subject is required" 400 :=
  ⟨(sendEmailHandler_bad_request sampleServer (sampleWorld 202)
      { Method := "POST", Body := "invalid json" } rfl (Or.inl ⟨_, rfl⟩)).1,
   (sendEmailHandler_bad_request sampleServer (sampleWorld 202)
      { Method := "POST", Body := "\x7b\"body\":\"B\"\x7d" } rfl
      (Or.inr ⟨_, rfl, Or.inl rfl⟩)).2.2.2.1 _ rfl rfl⟩

/-- C3: for a connection string that is empty, or none of whose `;`-separated
tokens begins with `endpoint=`, or none of whose tokens begins with
`accesskey=`, `NewEmailClient` returns an error (and so no client): the
empty-string error or the wrapped parse error. -/
theorem NewEmailClient_error_of_missing (connectionString : String)
    (h : connectionString = "" ∨
      (∀ t ∈ strings.Split connectionString ';', strings.HasPrefix t "endpoint=" = false) ∨
      (∀ t ∈ strings.Split connectionString ';', strings.HasPrefix t "accesskey=" = false)) :
    NewEmailClient connectionString = Except.error "connection string cannot be empty" ∨
      NewEmailClient connectionString =
        Except.error "failed to parse connection string: invalid connection string format" := by
  by_cases he : connectionString = ""
  · left
    unfold NewEmailClient
    rw [if_pos he]
  · right
    have hparse : parseConnectionString connectionString =
        Except.error "invalid connection string format" := by
      unfold parseConnectionString
      simp only
      rw [foldl_parseStep_fst, foldl_parseStep_snd]
      rcases h with h | h | h
      · exact absurd h he
      · have : (strings.Split connectionString ';').filter
            (fun t => strings.HasPrefix t "endpoint=") = [] := by
          rw [List.filter_eq_nil_iff]
          intro t ht
          rw [h t ht]
          exact Bool.false_ne_true
        rw [this]
        simp
      · have : (strings.Split connectionString ';').filter
            (fun t => strings.HasPrefix t "accesskey=") = [] := by
          rw [List.filter_eq_nil_iff]
          intro t ht
          rw [h t ht]
          exact Bool.false_ne_true
        rw [this]
        simp
    unfold NewEmailClient
    rw [if_neg he, hparse]
    rfl

theorem NewEmailClient_error_of_missing_witness :
    NewEmailClient "accesskey=secret;region=eu" =
        Except.error "connection string cannot be empty" ∨
      NewEmailClient "accesskey=secret;region=eu" =
        Except.error "failed to parse connection string: invalid connection string format" :=
  NewEmailClient_error_of_missing "accesskey=secret;region=eu" (Or.inr (Or.inl (by decide)))

/-- C4: for a non-empty endpoint `E` and a non-empty access key `K` that hold
no `;`, parsing `endpoint=E;accesskey=K` succeeds with exactly `E` and `K`
(whatever else they hold, `=` included), and parsing `accesskey=K;endpoint=E`
gives the same result. -/
theorem parseConnectionString_wellformed (E K : String) (hE : E ≠ "") (hK : K ≠ "")
    (hEs : ';' ∉ E.data) (hKs : ';' ∉ K.data) :
    parseConnectionString ("endpoint=" ++ E ++ ";" ++ ("accesskey=" ++ K)) = Except.ok (E, K) ∧
      parseConnectionString ("accesskey=" ++ K ++ ";" ++ ("endpoint=" ++ E))
        = Except.ok (E, K) := by
  have hEt : ';' ∉ ("endpoint=" ++ E).data := by
    rw [String.data_append, List.mem_append]
    rintro (h | h)
    · revert h; decide
    · exact hEs h
  have hKt : ';' ∉ ("accesskey=" ++ K).data := by
    rw [String.data_append, List.mem_append]
    rintro (h | h)
    · revert h; decide
    · exact hKs h
  have hEK : strings.HasPrefix ("accesskey=" ++ K) "endpoint=" = false := by
    cases h : strings.HasPrefix ("accesskey=" ++ K) "endpoint=" with
    | false => rfl
    | true =>
      have := not_accesskey_of_endpoint _ h
      rw [hasPrefix_append] at this
      exact Bool.noConfusion this
  constructor
  · unfold parseConnectionString
    rw [split_append_sep _ _ hEt, split_single _ hKt]
    simp [parseStep, hasPrefix_append, trimPrefix_append, hEK, hE, hK]
  · unfold parseConnectionString
    rw [split_append_sep _ _ hKt, split_single _ hEt]
    simp [parseStep, hasPrefix_append, trimPrefix_append, hEK, hE, hK]

theorem parseConnectionString_wellformed_witness :
    parseConnectionString ("endpoint=" ++ "https://acs.example/" ++ ";" ++ ("accesskey=" ++ "a=b=="))
        = Except.ok ("https://acs.example/", "a=b==") ∧
      parseConnectionString ("accesskey=" ++ "a=b==" ++ ";" ++ ("endpoint=" ++ "https://acs.example/"))
        = Except.ok ("https://acs.example/", "a=b==") :=
  parseConnectionString_wellformed "https://acs.example/" "a=b==" (by decide) (by decide)
    (by decide) (by decide)

/-- C5, as stated, fails: with two different `endpoint=` tokens the last one
wins, so swapping them changes the endpoint that is returned. -/
theorem parseConnectionString_order_counterexample :
    List.Perm ["endpoint=a", "endpoint=b", "accesskey=k"]
        ["endpoint=b", "endpoint=a", "accesskey=k"] ∧
      (∀ t ∈ ["endpoint=a", "endpoint=b", "accesskey=k"], ';' ∉ t.data) ∧
      parseConnectionString (strings.Join ["endpoint=a", "endpoint=b", "accesskey=k"] ';')
        = Except.ok ("b", "k") ∧
      parseConnectionString (strings.Join ["endpoint=b", "endpoint=a", "accesskey=k"] ';')
        = Except.ok ("a", "k") ∧
      parseConnectionString (strings.Join ["endpoint=b", "endpoint=a", "accesskey=k"] ';')
        ≠ parseConnectionString (strings.Join ["endpoint=a", "endpoint=b", "accesskey=k"] ';') := by
  refine ⟨List.Perm.swap _ _ _, by decide, by decide, by decide, by decide⟩

/-- C5, amended: for a list of tokens holding no `;` in which all the tokens
that begin with `endpoint=` are equal and all the tokens that begin with
`accesskey=` are equal (as when each key occurs at most once), parsing any
permutation of the tokens joined with `;` gives the same outcome as parsing
the tokens joined with `;`. -/
theorem parseConnectionString_perm (ts ts' : List String) (hp : ts.Perm ts')
    (hsemi : ∀ t ∈ ts, ';' ∉ t.data)
    (hE : ∀ a ∈ ts, ∀ b ∈ ts, strings.HasPrefix a "endpoint=" = true →
      strings.HasPrefix b "endpoint=" = true → a = b)
    (hK : ∀ a ∈ ts, ∀ b ∈ ts, strings.HasPrefix a "accesskey=" = true →
      strings.HasPrefix b "accesskey=" = true → a = b) :
    parseConnectionString (strings.Join ts' ';') = parseConnectionString (strings.Join ts ';') := by
  by_cases hne : ts = []
  · subst hne
    rw [← hp.nil_eq]
  · have hne' : ts' ≠ [] := fun h => hne (by rw [h] at hp; exact hp.eq_nil)
    have hsemi' : ∀ t ∈ ts', ';' ∉ t.data := fun t ht => hsemi t (hp.mem_iff.mpr ht)
    unfold parseConnectionString
    simp only
    rw [split_join ts hne hsemi, split_join ts' hne' hsemi', foldl_parseStep_fst,
      foldl_parseStep_snd, foldl_parseStep_fst, foldl_parseStep_snd,
      getLast?_filter_perm _ ts ts' hp hE, getLast?_filter_perm _ ts ts' hp hK]

theorem parseConnectionString_perm_witness :
    parseConnectionString (strings.Join ["accesskey=k", "region=eu", "endpoint=e"] ';')
      = parseConnectionString (strings.Join ["endpoint=e", "accesskey=k", "region=eu"] ';') :=
  parseConnectionString_perm ["endpoint=e", "accesskey=k", "region=eu"]
    ["accesskey=k", "region=eu", "endpoint=e"]
    ((List.Perm.swap _ _ _).trans (List.Perm.cons _ (List.Perm.swap _ _ _)))
    (by decide) (by decide) (by decide)

/-- C6: the message `CreateEmailMessageFromConfig` returns has From, To,
Subject, Body and ReplyTo equal to the corresponding arguments, and CC and BCC
equal to the cc and bcc arguments whenever those have at least one entry. -/
theorem CreateEmailMessageFromConfig_fields (fromEmail : String)
    (toEmails ccEmails bccEmails : Slice String) (replyTo subject body : String) :
    (CreateEmailMessageFromConfig fromEmail toEmails ccEmails bccEmails replyTo subject body).From
        = fromEmail ∧
      (CreateEmailMessageFromConfig fromEmail toEmails ccEmails bccEmails replyTo subject body).To
        = toEmails ∧
      (CreateEmailMessageFromConfig fromEmail toEmails ccEmails bccEmails replyTo subject
        body).Subject = subject ∧
      (CreateEmailMessageFromConfig fromEmail toEmails ccEmails bccEmails replyTo subject body).Body
        = body ∧
      (CreateEmailMessageFromConfig fromEmail toEmails ccEmails bccEmails replyTo subject
        body).ReplyTo = replyTo ∧
      (ccEmails.len > 0 →
        (CreateEmailMessageFromConfig fromEmail toEmails ccEmails bccEmails replyTo subject
          body).CC = ccEmails) ∧
      (bccEmails.len > 0 →
        (CreateEmailMessageFromConfig fromEmail toEmails ccEmails bccEmails replyTo subject
          body).BCC = bccEmails) := by
  unfold CreateEmailMessageFromConfig
  refine ⟨?_, ?_, ?_, ?_, ?_, ?_, ?_⟩ <;> simp only <;> split_ifs <;> simp_all

/-! ## Lemmas about the provider payload -/

/-- The payload of `SendEmail` in closed form. -/
theorem buildAzureRequest_eq (msg : EmailMessage) :
    buildAzureRequest msg =
      { SenderAddress := msg.From
        Content := { Subject := msg.Subject, PlainText := msg.Body }
        Recipients :=
          { To := convertToAzureEmailAddresses msg.To
            CC := if msg.CC.len > 0 then convertToAzureEmailAddresses msg.CC else Slice.nil
            BCC := if msg.BCC.len > 0 then convertToAzureEmailAddresses msg.BCC else Slice.nil }
        ReplyTo := if msg.ReplyTo ≠ "" then some { Email := msg.ReplyTo } else none } := by
  unfold buildAzureRequest
  simp only
  split_ifs <;> rfl

theorem convertToAzureEmailAddresses_len (addresses : Slice String) :
    (convertToAzureEmailAddresses addresses).len = addresses.len := by
  simp [convertToAzureEmailAddresses, Slice.len, Slice.toList]

theorem recipients_json_to (r : azureEmailRecipients) :
    r.toJSON.get? "to" = some (marshalSlice azureEmailAddress.toJSON r.To) := by
  unfold azureEmailRecipients.toJSON JSON.get? omitemptySlice
  split_ifs <;> simp

theorem recipients_json_cc (r : azureEmailRecipients) :
    r.toJSON.get? "cc" =
      if r.CC.len = 0 then none else some (marshalSlice azureEmailAddress.toJSON r.CC) := by
  unfold azureEmailRecipients.toJSON JSON.get? omitemptySlice
  split_ifs <;> simp

theorem recipients_json_bcc (r : azureEmailRecipients) :
    r.toJSON.get? "bcc" =
      if r.BCC.len = 0 then none else some (marshalSlice azureEmailAddress.toJSON r.BCC) := by
  unfold azureEmailRecipients.toJSON JSON.get? omitemptySlice
  split_ifs <;> simp

theorem request_json_replyTo (r : azureEmailRequest) :
    r.toJSON.get? "replyTo" = r.ReplyTo.map azureEmailAddress.toJSON := by
  unfold azureEmailRequest.toJSON JSON.get?
  cases r.ReplyTo <;> simp

/-- When the precondition holds and the request can be created, `SendEmail`
creates one request whose body is the payload and hands it to `httpClient.Do`. -/
theorem SendEmail_events_of_created (ec : EmailClient) (w : World) (msg : EmailMessage)
    (hvalid : validateMessage msg = none)
    (hnew : w.newRequestError "POST" (ec.endpoint ++ "/emails:send?api-version=2023-03-31") = none) :
    ∃ req rest, (SendEmail ec w msg).2 =
        Event.httpRequestCreated req :: Event.httpRequestSent req :: rest ∧
      req.Body = (buildAzureRequest msg).toJSON := by
  unfold SendEmail
  rw [hvalid]
  dsimp only
  rw [hnew]
  dsimp only
  split
  · exact ⟨_, [], rfl, rfl⟩
  · split
    · exact ⟨_, [], rfl, rfl⟩
    · split_ifs
      · exact ⟨_, [], rfl, rfl⟩
      · exact ⟨_, [_], rfl, rfl⟩

/-- C7, as stated, fails for the reply-to: with an empty configured reply-to
(the input of the repository's own test) the built message carries the empty
string in `ReplyTo`. -/
theorem CreateEmailMessageFromConfig_replyTo_counterexample :
    (CreateEmailMessageFromConfig "test@example.com"
        (Slice.mk ["recipient1@example.com", "recipient2@example.com"]) Slice.nil Slice.nil ""
        "Test Subject" "Test Body").ReplyTo = "" ∧
      CreateEmailMessageFromConfig "test@example.com"
        (Slice.mk ["recipient1@example.com", "recipient2@example.com"]) Slice.nil Slice.nil ""
        "Test Subject" "Test Body" =
        { From := "test@example.com",
          To := Slice.mk ["recipient1@example.com", "recipient2@example.com"],
          Subject := "Test Subject", Body := "Test Body",
          CC := Slice.nil, BCC := Slice.nil, ReplyTo := "" } := by
  decide

/-- C7, amended: when the configured cc list is empty (nil or of length zero)
the built message has the nil slice for CC, and likewise for bcc; whatever the
input, CC and BCC are never a non-nil empty slice. The reply-to is copied as it
is, so with an empty configured reply-to the built message holds the empty
string in `ReplyTo`. It is the provider payload built from the message that
has no `cc`, `bcc` or `replyTo` member (and the nil pointer for `ReplyTo`) when
the configured value is empty. -/
theorem CreateEmailMessageFromConfig_omits_empty (fromEmail : String)
    (toEmails ccEmails bccEmails : Slice String) (replyTo subject body : String) :
    (ccEmails.len = 0 →
        (CreateEmailMessageFromConfig fromEmail toEmails ccEmails bccEmails replyTo subject
          body).CC = Slice.nil ∧
        (buildAzureRequest (CreateEmailMessageFromConfig fromEmail toEmails ccEmails bccEmails
          replyTo subject body)).Recipients.toJSON.get? "cc" = none) ∧
      (bccEmails.len = 0 →
        (CreateEmailMessageFromConfig fromEmail toEmails ccEmails bccEmails replyTo subject
          body).BCC = Slice.nil ∧
        (buildAzureRequest (CreateEmailMessageFromConfig fromEmail toEmails ccEmails bccEmails
          replyTo subject body)).Recipients.toJSON.get? "bcc" = none) ∧
      (CreateEmailMessageFromConfig fromEmail toEmails ccEmails bccEmails replyTo subject
          body).CC ≠ Slice.mk [] ∧
      (CreateEmailMessageFromConfig fromEmail toEmails ccEmails bccEmails replyTo subject
          body).BCC ≠ Slice.mk [] ∧
      (CreateEmailMessageFromConfig fromEmail toEmails ccEmails bccEmails replyTo subject
          body).ReplyTo = replyTo ∧
      (replyTo = "" →
        (CreateEmailMessageFromConfig fromEmail toEmails ccEmails bccEmails replyTo subject
          body).ReplyTo = "" ∧
        (buildAzureRequest (CreateEmailMessageFromConfig fromEmail toEmails ccEmails bccEmails
          replyTo subject body)).ReplyTo = none ∧
        (buildAzureRequest (CreateEmailMessageFromConfig fromEmail toEmails ccEmails bccEmails
          replyTo subject body)).toJSON.get? "replyTo" = none) := by
  have hCC : (CreateEmailMessageFromConfig fromEmail toEmails ccEmails bccEmails replyTo subject
      body).CC = if ccEmails.len > 0 then ccEmails else Slice.nil := by
    unfold CreateEmailMessageFromConfig
    simp only
    split_ifs <;> rfl
  have hBCC : (CreateEmailMessageFromConfig fromEmail toEmails ccEmails bccEmails replyTo subject
      body).BCC = if bccEmails.len > 0 then bccEmails else Slice.nil := by
    unfold CreateEmailMessageFromConfig
    simp only
    split_ifs <;> rfl
  have hR : (CreateEmailMessageFromConfig fromEmail toEmails ccEmails bccEmails replyTo subject
      body).ReplyTo = replyTo := by
    unfold CreateEmailMessageFromConfig
    simp only
    split_ifs <;> rfl
  refine ⟨?_, ?_, ?_, ?_, hR, ?_⟩
  · intro h
    have hn : ¬ ccEmails.len > 0 := by omega
    rw [recipients_json_cc, buildAzureRequest_eq]
    simp only [hCC, if_neg hn]
    exact ⟨trivial, if_pos rfl⟩
  · intro h
    have hn : ¬ bccEmails.len > 0 := by omega
    rw [recipients_json_bcc, buildAzureRequest_eq]
    simp only [hBCC, if_neg hn]
    exact ⟨trivial, if_pos rfl⟩
  · rw [hCC]
    split_ifs with h
    · intro he
      rw [he] at h
      exact absurd h (by decide)
    · intro he
      exact Slice.noConfusion he
  · rw [hBCC]
    split_ifs with h
    · intro he
      rw [he] at h
      exact absurd h (by decide)
    · intro he
      exact Slice.noConfusion he
  · intro h
    subst h
    refine ⟨hR, ?_, ?_⟩
    · rw [buildAzureRequest_eq]
      simp only [hR]
      exact if_neg (not_not.mpr rfl)
    · rw [request_json_replyTo, buildAzureRequest_eq]
      simp only [hR]
      rw [if_neg (not_not.mpr rfl)]
      rfl

/-- C8: for a message that passes the precondition, the payload `SendEmail`
builds has senderAddress equal to from, content.subject equal to subject,
content.plainText equal to body, and recipients.to equal to the to list mapped
element by element, in order, to `{email: address}` objects (a non-empty
array); cc and bcc are mapped the same way when non-empty and are otherwise
absent from the serialized recipients object; replyTo is absent when empty and
is `{email: replyTo}` otherwise. When the HTTP request can be created,
`SendEmail` creates a request with exactly this payload as its body and hands
that request to `httpClient.Do`. -/
theorem SendEmail_payload (ec : EmailClient) (w : World) (msg : EmailMessage)
    (hvalid : validateMessage msg = none) :
    (buildAzureRequest msg).toJSON.get? "senderAddress" = some (JSON.str msg.From) ∧
      (buildAzureRequest msg).toJSON.get? "content" =
        some (JSON.obj [("subject", JSON.str msg.Subject), ("plainText", JSON.str msg.Body)]) ∧
      (buildAzureRequest msg).toJSON.get? "recipients" =
        some (buildAzureRequest msg).Recipients.toJSON ∧
      (buildAzureRequest msg).Recipients.toJSON.get? "to" =
        some (JSON.arr (msg.To.toList.map fun a => JSON.obj [("email", JSON.str a)])) ∧
      msg.To.toList ≠ [] ∧
      (msg.CC.len > 0 →
        (buildAzureRequest msg).Recipients.toJSON.get? "cc" =
          some (JSON.arr (msg.CC.toList.map fun a => JSON.obj [("email", JSON.str a)]))) ∧
      (msg.CC.len = 0 → (buildAzureRequest msg).Recipients.toJSON.get? "cc" = none) ∧
      (msg.BCC.len > 0 →
        (buildAzureRequest msg).Recipients.toJSON.get? "bcc" =
          some (JSON.arr (msg.BCC.toList.map fun a => JSON.obj [("email", JSON.str a)]))) ∧
      (msg.BCC.len = 0 → (buildAzureRequest msg).Recipients.toJSON.get? "bcc" = none) ∧
      (msg.ReplyTo ≠ "" →
        (buildAzureRequest msg).toJSON.get? "replyTo" =
          some (JSON.obj [("email", JSON.str msg.ReplyTo)])) ∧
      (msg.ReplyTo = "" → (buildAzureRequest msg).toJSON.get? "replyTo" = none) ∧
      (w.newRequestError "POST" (ec.endpoint ++ "/emails:send?api-version=2023-03-31") = none →
        ∃ req rest, (SendEmail ec w msg).2 =
            Event.httpRequestCreated req :: Event.httpRequestSent req :: rest ∧
          req.Body = (buildAzureRequest msg).toJSON) := by
  have hto : msg.To.toList ≠ [] := by
    intro h
    unfold validateMessage at hvalid
    have hlen : msg.To.len = 0 := by simp [Slice.len, h]
    split_ifs at hvalid
  refine ⟨?_, ?_, ?_, ?_, hto, ?_, ?_, ?_, ?_, ?_, ?_, ?_⟩
  · unfold azureEmailRequest.toJSON JSON.get?
    rw [buildAzureRequest_eq]
    simp
  · unfold azureEmailRequest.toJSON JSON.get?
    rw [buildAzureRequest_eq]
    simp
  · unfold azureEmailRequest.toJSON JSON.get?
    simp
  · rw [recipients_json_to, buildAzureRequest_eq]
    simp [convertToAzureEmailAddresses, marshalSlice, azureEmailAddress.toJSON]
  · intro h
    have h0 : ¬ (convertToAzureEmailAddresses msg.CC).len = 0 := by
      rw [convertToAzureEmailAddresses_len]; omega
    rw [recipients_json_cc, buildAzureRequest_eq]
    simp only [if_pos h, if_neg h0]
    simp [convertToAzureEmailAddresses, marshalSlice, azureEmailAddress.toJSON]
  · intro h
    have h0 : ¬ msg.CC.len > 0 := by omega
    rw [recipients_json_cc, buildAzureRequest_eq]
    simp only [if_neg h0]
    exact if_pos rfl
  · intro h
    have h0 : ¬ (convertToAzureEmailAddresses msg.BCC).len = 0 := by
      rw [convertToAzureEmailAddresses_len]; omega
    rw [recipients_json_bcc, buildAzureRequest_eq]
    simp only [if_pos h, if_neg h0]
    simp [convertToAzureEmailAddresses, marshalSlice, azureEmailAddress.toJSON]
  · intro h
    have h0 : ¬ msg.BCC.len > 0 := by omega
    rw [recipients_json_bcc, buildAzureRequest_eq]
    simp only [if_neg h0]
    exact if_pos rfl
  · intro h
    rw [request_json_replyTo, buildAzureRequest_eq]
    simp only [if_pos h]
    rfl
  · intro h
    rw [request_json_replyTo, buildAzureRequest_eq]
    simp only [h]
    rfl
  · intro hnew
    exact SendEmail_events_of_created ec w msg hvalid hnew

theorem SendEmail_payload_witness :
    (buildAzureRequest sampleMessage).Recipients.toJSON.get? "to" =
        some (JSON.arr (sampleMessage.To.toList.map fun a => JSON.obj [("email", JSON.str a)])) ∧
      (buildAzureRequest sampleMessage).Recipients.toJSON.get? "cc" = none ∧
      (buildAzureRequest sampleMessage).toJSON.get? "replyTo" = none ∧
      (∃ req rest, (SendEmail sampleClient (sampleWorld 202) sampleMessage).2 =
          Event.httpRequestCreated req :: Event.httpRequestSent req :: rest ∧
        req.Body = (buildAzureRequest sampleMessage).toJSON) ∧
      (buildAzureRequest sampleMessage).toJSON =
        JSON.obj
          [("senderAddress", JSON.str "noreply@example.com"),
           ("content", JSON.obj [("subject", JSON.str "S"), ("plainText", JSON.str "B")]),
           ("recipients",
             JSON.obj [("to", JSON.arr [JSON.obj [("email", JSON.str "a@example.com")]])])] :=
  ⟨(SendEmail_payload sampleClient (sampleWorld 202) sampleMessage rfl).2.2.2.1,
   (SendEmail_payload sampleClient (sampleWorld 202) sampleMessage rfl).2.2.2.2.2.2.1 rfl,
   (SendEmail_payload sampleClient (sampleWorld 202) sampleMessage rfl).2.2.2.2.2.2.2.2.2.2.1 rfl,
   (SendEmail_payload sampleClient (sampleWorld 202) sampleMessage rfl).2.2.2.2.2.2.2.2.2.2.2 rfl,
   rfl⟩

/-- C9: for a request that passes the handler's own validation, if the adapter
returns success the handler answers 200 with success=true, the message
`Email sent successfully` and a non-empty id; if the adapter returns a failure,
whatever its kind, the handler answers 500 with success=false and a message
that ends with the failure text; in neither case is the status 400. -/
theorem sendEmailHandler_adapter_outcome (s : Server) (w : World) (r : Request)
    (q : EmailRequest) (hm : r.Method = "POST")
    (hd : w.decodeEmailRequest r.Body = Except.ok q) (hs : q.Subject ≠ "") (hb : q.Body ≠ "") :
    ((SendEmail s.emailClient w
          (CreateEmailMessageFromConfig s.config.ACSFromEmail s.config.EmailTo s.config.EmailCC
            s.config.EmailBCC s.config.EmailReplyTo q.Subject q.Body)).1 = none →
        (sendEmailHandler s w r).1 =
          { Status := 200, ContentType := "application/json",
            Body := ResponseBody.json
              { Success := true, Message := "Email sent successfully",
                ID := "email_" ++ toString w.now } } ∧
        "email_" ++ toString w.now ≠ "") ∧
      (∀ err, (SendEmail s.emailClient w
          (CreateEmailMessageFromConfig s.config.ACSFromEmail s.config.EmailTo s.config.EmailCC
            s.config.EmailBCC s.config.EmailReplyTo q.Subject q.Body)).1 = some err →
        (sendEmailHandler s w r).1 =
          { Status := 500, ContentType := "application/json",
            Body := ResponseBody.json
              { Success := false, Message := "Failed to send email: " ++ err, ID := "" } }) ∧
      (sendEmailHandler s w r).1.Status ≠ 400 := by
  have hid : "email_" ++ toString w.now ≠ "" := by
    intro h
    have := congrArg String.data h
    rw [String.data_append] at this
    exact absurd (List.append_eq_nil.mp this).1 (by decide)
  unfold sendEmailHandler
  rw [if_neg (not_not.mpr hm), hd]
  simp only [if_neg hs, if_neg hb]
  refine ⟨?_, ?_, ?_⟩
  · intro h
    rw [h]
    exact ⟨rfl, hid⟩
  · intro err h
    rw [h]
  · cases h : (SendEmail s.emailClient w
        (CreateEmailMessageFromConfig s.config.ACSFromEmail s.config.EmailTo s.config.EmailCC
          s.config.EmailBCC s.config.EmailReplyTo q.Subject q.Body)).1 <;> simp

theorem sendEmailHandler_adapter_outcome_witness :
    (sendEmailHandler sampleServer (sampleWorld 503)
        { Method := "POST", Body := "\x7b\"subject\":\"S\",\"body\":\"B\"\x7d" }).1 =
      { Status := 500, ContentType := "application/json",
        Body := ResponseBody.json
          { Success := false,
            Message := "Failed to send email: " ++ "email send failed with status 503: accepted",
            ID := "" } } :=
  (sendEmailHandler_adapter_outcome sampleServer (sampleWorld 503)
    { Method := "POST", Body := "\x7b\"subject\":\"S\",\"body\":\"B\"\x7d" }
    { Subject := "S", Body := "B" } rfl rfl (by decide) (by decide)).2.1 _ (by decide)

/-- C10 on the code: a POST with a non-empty subject and a non-empty body to a
server whose configuration names no recipient is answered 500 (the adapter's
validation failure), not 400; with a recipient configured and an accepting
provider the same request is answered 200. -/
theorem sendEmailHandler_missing_recipients_status :
    (sendEmailHandler noRecipientsServer (sampleWorld 202)
        { Method := "POST", Body := "\x7b\"subject\":\"S\",\"body\":\"B\"\x7d" }).1 =
      { Status := 500, ContentType := "application/json",
        Body := ResponseBody.json
          { Success := false,
            Message :=
              "Failed to send email: invalid email message: at least one recipient is required",
            ID := "" } } ∧
      (sendEmailHandler sampleServer (sampleWorld 202)
        { Method := "POST", Body := "\x7b\"subject\":\"S\",\"body\":\"B\"\x7d" }).1.Status = 200 := by
  decide

/-! ## Lemmas about the events of the handler -/

theorem sentMessages_append (xs ys : List Event) :
    sentMessages (xs ++ ys) = sentMessages xs ++ sentMessages ys := by
  induction xs with
  | nil => rfl
  | cons x xs ih =>
    cases x <;> simp [sentMessages, ih]

/-- The adapter itself hands no message on: its events are HTTP and log events. -/
theorem sentMessages_SendEmail (ec : EmailClient) (w : World) (msg : EmailMessage) :
    sentMessages (SendEmail ec w msg).2 = [] := by
  unfold SendEmail
  dsimp only
  split
  · rfl
  · split
    · rfl
    · split
      · rfl
      · split
        · rfl
        · split_ifs <;> rfl

/-- The events of a request that passes the handler's validation hold exactly
one message handed to the adapter: the one built from the configuration. -/
theorem sentMessages_sendEmailHandler (s : Server) (w : World) (r : Request) (q : EmailRequest)
    (hm : r.Method = "POST") (hd : w.decodeEmailRequest r.Body = Except.ok q)
    (hs : q.Subject ≠ "") (hb : q.Body ≠ "") :
    sentMessages (sendEmailHandler s w r).2 =
      [CreateEmailMessageFromConfig s.config.ACSFromEmail s.config.EmailTo s.config.EmailCC
        s.config.EmailBCC s.config.EmailReplyTo q.Subject q.Body] := by
  unfold sendEmailHandler
  rw [if_neg (not_not.mpr hm), hd]
  simp only [if_neg hs, if_neg hb]
  split
  · simp [sentMessages_append, sentMessages, sentMessages_SendEmail]
  · simp [sentMessages_append, sentMessages, sentMessages_SendEmail]

/-- C11: for two servers with the same configuration and any two requests that
pass the handler's validation (in any two worlds), each run hands exactly one
message to the adapter, and the two messages have the same from, to, cc, bcc
and replyTo: from, to and replyTo are the configured values and cc and bcc are
the configured lists (the nil slice when the list is empty); subject and body
are those of the request. -/
theorem sendEmailHandler_message_from_config (s₁ s₂ : Server) (w₁ w₂ : World)
    (r₁ r₂ : Request) (q₁ q₂ : EmailRequest) (hcfg : s₁.config = s₂.config)
    (hm₁ : r₁.Method = "POST") (hd₁ : w₁.decodeEmailRequest r₁.Body = Except.ok q₁)
    (hs₁ : q₁.Subject ≠ "") (hb₁ : q₁.Body ≠ "")
    (hm₂ : r₂.Method = "POST") (hd₂ : w₂.decodeEmailRequest r₂.Body = Except.ok q₂)
    (hs₂ : q₂.Subject ≠ "") (hb₂ : q₂.Body ≠ "") :
    ∃ m₁ m₂, sentMessages (sendEmailHandler s₁ w₁ r₁).2 = [m₁] ∧
      sentMessages (sendEmailHandler s₂ w₂ r₂).2 = [m₂] ∧
      m₁.From = m₂.From ∧ m₁.To = m₂.To ∧ m₁.CC = m₂.CC ∧ m₁.BCC = m₂.BCC ∧
      m₁.ReplyTo = m₂.ReplyTo ∧
      m₁.From = s₁.config.ACSFromEmail ∧ m₁.To = s₁.config.EmailTo ∧
      m₁.ReplyTo = s₁.config.EmailReplyTo ∧
      m₁.CC = (if s₁.config.EmailCC.len > 0 then s₁.config.EmailCC else Slice.nil) ∧
      m₁.BCC = (if s₁.config.EmailBCC.len > 0 then s₁.config.EmailBCC else Slice.nil) ∧
      m₁.Subject = q₁.Subject ∧ m₁.Body = q₁.Body ∧
      m₂.Subject = q₂.Subject ∧ m₂.Body = q₂.Body := by
  refine ⟨_, _, sentMessages_sendEmailHandler s₁ w₁ r₁ q₁ hm₁ hd₁ hs₁ hb₁,
    sentMessages_sendEmailHandler s₂ w₂ r₂ q₂ hm₂ hd₂ hs₂ hb₂, ?_⟩
  rw [← hcfg]
  unfold CreateEmailMessageFromConfig
  simp only
  refine ⟨?_, ?_, ?_, ?_, ?_, ?_, ?_, ?_, ?_, ?_, ?_, ?_, ?_, ?_⟩ <;> split_ifs <;> rfl

theorem sendEmailHandler_message_from_config_witness :
    ∃ m₁ m₂,
      sentMessages (sendEmailHandler sampleServer (sampleWorld 202)
        { Method := "POST", Body := "\x7b\"subject\":\"S\",\"body\":\"B\"\x7d" }).2 = [m₁] ∧
      sentMessages (sendEmailHandler sampleServer unreachableWorld
        { Method := "POST",
          Body := "\x7b\"subject\":\"Hello\",\"body\":\"World\"\x7d" }).2 = [m₂] ∧
      m₁.From = m₂.From ∧ m₁.To = m₂.To ∧ m₁.CC = m₂.CC ∧ m₁.BCC = m₂.BCC ∧
      m₁.ReplyTo = m₂.ReplyTo ∧
      m₁.From = sampleServer.config.ACSFromEmail ∧ m₁.To = sampleServer.config.EmailTo ∧
      m₁.ReplyTo = sampleServer.config.EmailReplyTo ∧
      m₁.CC = (if sampleServer.config.EmailCC.len > 0 then sampleServer.config.EmailCC
        else Slice.nil) ∧
      m₁.BCC = (if sampleServer.config.EmailBCC.len > 0 then sampleServer.config.EmailBCC
        else Slice.nil) ∧
      m₁.Subject = "S" ∧ m₁.Body = "B" ∧ m₂.Subject = "Hello" ∧ m₂.Body = "World" :=
  sendEmailHandler_message_from_config sampleServer sampleServer (sampleWorld 202)
    unreachableWorld
    { Method := "POST", Body := "\x7b\"subject\":\"S\",\"body\":\"B\"\x7d" }
    { Method := "POST", Body := "\x7b\"subject\":\"Hello\",\"body\":\"World\"\x7d" }
    { Subject := "S", Body := "B" } { Subject := "Hello", Body := "World" }
    rfl rfl rfl (by decide) (by decide) rfl rfl (by decide) (by decide)

/-- C12: for a request whose method is not POST, whatever its body, the handler
answers 405 by `http.Error` and performs no event: the body is not decoded, no
message is built and the adapter is not called. -/
theorem sendEmailHandler_method_not_allowed (s : Server) (w : World) (r : Request)
    (hm : r.Method ≠ "POST") :
    sendEmailHandler s w r = (httpError "Method not allowed" 405, []) ∧
      (sendEmailHandler s w r).1.Status = 405 := by
  unfold sendEmailHandler
  rw [if_pos hm]
  exact ⟨rfl, rfl⟩

theorem sendEmailHandler_method_not_allowed_witness :
    sendEmailHandler sampleServer (sampleWorld 202) { Method := "GET", Body := "invalid json" }
        = (httpError "Method not allowed" 405, []) ∧
      (sendEmailHandler sampleServer (sampleWorld 202)
        { Method := "GET", Body := "invalid json" }).1.Status = 405 :=
  sendEmailHandler_method_not_allowed sampleServer (sampleWorld 202)
    { Method := "GET", Body := "invalid json" } (by decide)

/-- C13: when the message passes the precondition, the request is created and
the provider answers it with status code `s` and a fully read body `b`, then
for `s ≥ 400` `SendEmail` returns the failure
`email send failed with status s: b`, which contains the decimal rendering of
`s` and the raw body `b`, and for `s < 400` it returns success. -/
theorem SendEmail_status_mapping (ec : EmailClient) (w : World) (msg : EmailMessage)
    (s : Int) (b : String) (hvalid : validateMessage msg = none)
    (hnew : w.newRequestError "POST" (ec.endpoint ++ "/emails:send?api-version=2023-03-31") = none)
    (hdo : w.httpDo ec.httpClientTimeout
        { Method := "POST", URL := ec.endpoint ++ "/emails:send?api-version=2023-03-31",
          Header := [("Content-Type", "application/json"),
                     ("Authorization", "HMAC-SHA256 " ++ ec.accessKey)],
          Body := (buildAzureRequest msg).toJSON }
      = Except.ok { StatusCode := s, Body := Except.ok b }) :
    (s ≥ 400 →
        ∃ detail, (SendEmail ec w msg).1 = some detail ∧
          detail = "email send failed with status " ++ toString s ++ ": " ++ b ∧
          (toString s).data <:+: detail.data ∧ b.data <:+: detail.data) ∧
      (s < 400 → (SendEmail ec w msg).1 = none) := by
  unfold SendEmail
  rw [hvalid]
  dsimp only
  rw [hnew]
  dsimp only
  rw [hdo]
  dsimp only
  constructor
  · intro hs
    refine ⟨_, by rw [if_pos hs], rfl, ?_, ?_⟩
    · refine ⟨"email send failed with status ".data, ": ".data ++ b.data, ?_⟩
      simp [String.data_append]
    · refine ⟨("email send failed with status " ++ toString s ++ ": ").data, [], ?_⟩
      simp [String.data_append]
  · intro hs
    have : ¬ s ≥ 400 := by omega
    rw [if_neg this]

theorem SendEmail_status_mapping_witness :
    (∃ detail, (SendEmail sampleClient (sampleWorld 503) sampleMessage).1 = some detail ∧
      detail = "email send failed with status " ++ toString (503 : Int) ++ ": " ++ "accepted" ∧
      (toString (503 : Int)).data <:+: detail.data ∧ "accepted".data <:+: detail.data) ∧
      "email send failed with status " ++ toString (503 : Int) ++ ": " ++ "accepted"
        = "email send failed with status 503: accepted" ∧
      (SendEmail sampleClient (sampleWorld 202) sampleMessage).1 = none :=
  ⟨(SendEmail_status_mapping sampleClient (sampleWorld 503) sampleMessage 503 "accepted"
      rfl rfl rfl).1 (by decide),
   by decide,
   (SendEmail_status_mapping sampleClient (sampleWorld 202) sampleMessage 202 "accepted"
      rfl rfl rfl).2 (by decide)⟩

end ComplaintEscalator
